import Mathlib

set_option maxHeartbeats 1000000

/-!
Verification of the packet codec of the chirpstack-packet-multiplexer
repository (src/packets.rs).  Byte strings are embedded as List Nat with
each element a byte value; fallible operations return Option.  The JSON
layer mirrors the behaviour of the serde machinery used by the source
(documented in the spec, sections 4.1 and 9): a JSON value type, a parser
over raw bytes, a compact serialiser, and the canonical base64 codec used
for the rxpk data field.
-/

/-- Packet type, one octet at offset 3 of every frame (src/packets.rs,
enum PacketType). -/
inductive PacketType where
  | PushData
  | PushAck
  | PullData
  | PullResp
  | PullAck
  | TxAck
  deriving DecidableEq

/-- From PacketType for u8 (src/packets.rs). -/
def PacketType.toByte : PacketType → Nat
  | .PushData => 0x00
  | .PushAck => 0x01
  | .PullData => 0x02
  | .PullResp => 0x03
  | .PullAck => 0x04
  | .TxAck => 0x05

/-- TryFrom a byte slice for PacketType (src/packets.rs): at least 4 bytes,
then the octet at offset 3 selects the variant; anything else is an error
(embedded as none). -/
def PacketType.try_from (v : List Nat) : Option PacketType :=
  if v.length < 4 then none
  else if v.getD 3 0 = 0x00 then some .PushData
  else if v.getD 3 0 = 0x01 then some .PushAck
  else if v.getD 3 0 = 0x02 then some .PullData
  else if v.getD 3 0 = 0x03 then some .PullResp
  else if v.getD 3 0 = 0x04 then some .PullAck
  else if v.getD 3 0 = 0x05 then some .TxAck
  else none

/-- Gateway identifier: the 8 bytes at offsets 4..11 of an upstream frame
(src/packets.rs, struct GatewayId), compared bytewise via derived Eq. -/
structure GatewayId where
  bytes : List Nat
  deriving DecidableEq

/-- TryFrom a byte slice for GatewayId (src/packets.rs): at least 12 bytes,
then bytes 4..11 are copied. -/
def GatewayId.try_from (v : List Nat) : Option GatewayId :=
  if v.length < 12 then none
  else some ⟨(v.drop 4).take 8⟩

/-- get_random_token (src/packets.rs): big-endian u16 from bytes 1 and 2,
requires at least 3 bytes. -/
def get_random_token (v : List Nat) : Option Nat :=
  if v.length < 3 then none
  else some (256 * v.getD 1 0 + v.getD 2 0)

/-- JSON values as produced by the serde_json layer the source relies on.
Object fields are kept as an ordered association list; keys and string
contents are the raw (unescaped) byte sequences; numbers keep their source
lexeme, since no operation of the program inspects a numeric value. -/
inductive Json where
  | null : Json
  | bool (b : Bool) : Json
  | num (lexeme : List Nat) : Json
  | str (s : List Nat) : Json
  | arr (elems : List Json) : Json
  | obj (fields : List (List Nat × Json)) : Json

/-- JSON whitespace skipping: space, tab, LF, CR. -/
def skipWs : List Nat → List Nat
  | c :: rest =>
    if c = 32 ∨ c = 9 ∨ c = 10 ∨ c = 13 then skipWs rest else c :: rest
  | [] => []

/-- Value of an ASCII hex digit. -/
def hexVal (c : Nat) : Option Nat :=
  if 48 ≤ c ∧ c ≤ 57 then some (c - 48)
  else if 65 ≤ c ∧ c ≤ 70 then some (c - 55)
  else if 97 ≤ c ∧ c ≤ 102 then some (c - 87)
  else none

/-- Four hex digits, as used by JSON unicode escapes. -/
def readHex4 : List Nat → Option (Nat × List Nat)
  | a :: b :: c :: d :: rest =>
    match hexVal a, hexVal b, hexVal c, hexVal d with
    | some x, some y, some z, some w => some (4096 * x + 256 * y + 16 * z + w, rest)
    | _, _, _, _ => none
  | _ => none

/-- UTF-8 encoding of a unicode code point. -/
def utf8Encode (n : Nat) : List Nat :=
  if n < 0x80 then [n]
  else if n < 0x800 then [0xC0 + n / 64, 0x80 + n % 64]
  else if n < 0x10000 then [0xE0 + n / 4096, 0x80 + n / 64 % 64, 0x80 + n % 64]
  else [0xF0 + n / 262144, 0x80 + n / 4096 % 64, 0x80 + n / 64 % 64, 0x80 + n % 64]

/-- Body of a JSON string after the opening quote: handles the escape
sequences serde_json accepts, including surrogate pairs, rejects unescaped
control characters, and returns the unescaped bytes plus the remainder. -/
def parseStringRest : Nat → List Nat → Option (List Nat × List Nat)
  | 0, _ => none
  | fuel + 1, input =>
    match input with
    | [] => none
    | c :: rest =>
      if c = 34 then some ([], rest)
      else if c = 92 then
        match rest with
        | [] => none
        | e :: rest2 =>
          if e = 34 ∨ e = 92 ∨ e = 47 then
            match parseStringRest fuel rest2 with
            | some (s, r) => some (e :: s, r)
            | none => none
          else if e = 98 ∨ e = 102 ∨ e = 110 ∨ e = 114 ∨ e = 116 then
            let decoded : Nat :=
              if e = 98 then 8 else if e = 102 then 12
              else if e = 110 then 10 else if e = 114 then 13 else 9
            match parseStringRest fuel rest2 with
            | some (s, r) => some (decoded :: s, r)
            | none => none
          else if e = 117 then
            match readHex4 rest2 with
            | none => none
            | some (n, rest3) =>
              if n < 0xD800 ∨ 0xE000 ≤ n then
                match parseStringRest fuel rest3 with
                | some (s, r) => some (utf8Encode n ++ s, r)
                | none => none
              else if n < 0xDC00 then
                match rest3 with
                | 92 :: 117 :: rest4 =>
                  match readHex4 rest4 with
                  | none => none
                  | some (m, rest5) =>
                    if 0xDC00 ≤ m ∧ m < 0xE000 then
                      match parseStringRest fuel rest5 with
                      | some (s, r) =>
                        some (utf8Encode (0x10000 + 1024 * (n - 0xD800) + (m - 0xDC00)) ++ s, r)
                      | none => none
                    else none
                | _ => none
              else none
          else none
      else if c < 32 then none
      else
        match parseStringRest fuel rest with
        | some (s, r) => some (c :: s, r)
        | none => none

/-- ASCII decimal digit test. -/
def isDigit (c : Nat) : Bool := 48 ≤ c ∧ c ≤ 57

/-- Longest digit run at the head of the input. -/
def takeDigits : List Nat → List Nat × List Nat
  | c :: rest =>
    if isDigit c then
      let p := takeDigits rest
      (c :: p.1, p.2)
    else ([], c :: rest)
  | [] => ([], [])

/-- Integer part of a JSON number: a lone 0, or a nonzero digit followed by
any digits. -/
def parseIntPart : List Nat → Option (List Nat × List Nat)
  | c :: rest =>
    if c = 48 then some ([48], rest)
    else if isDigit c then
      let p := takeDigits rest
      some (c :: p.1, p.2)
    else none
  | [] => none

/-- Optional fraction part of a JSON number. -/
def parseFracPart (input : List Nat) : Option (List Nat × List Nat) :=
  match input with
  | 46 :: rest =>
    match takeDigits rest with
    | ([], _) => none
    | (d, r) => some (46 :: d, r)
  | _ => some ([], input)

/-- Optional exponent part of a JSON number. -/
def parseExpPart (input : List Nat) : Option (List Nat × List Nat) :=
  match input with
  | e :: rest =>
    if e = 101 ∨ e = 69 then
      match rest with
      | s :: rest2 =>
        if s = 43 ∨ s = 45 then
          match takeDigits rest2 with
          | ([], _) => none
          | (d, r) => some (e :: s :: d, r)
        else
          match takeDigits rest with
          | ([], _) => none
          | (d, r) => some (e :: d, r)
      | [] => none
    else some ([], input)
  | [] => some ([], input)

/-- A JSON number lexeme (sign, integer, fraction, exponent). -/
def parseNumber (input : List Nat) : Option (List Nat × List Nat) :=
  let sgn : List Nat × List Nat :=
    match input with
    | 45 :: r => ([45], r)
    | _ => ([], input)
  match parseIntPart sgn.2 with
  | none => none
  | some (ip, r1) =>
    match parseFracPart r1 with
    | none => none
    | some (fp, r2) =>
      match parseExpPart r2 with
      | none => none
      | some (ep, r3) => some (sgn.1 ++ ip ++ fp ++ ep, r3)

mutual

/-- Recursive-descent JSON value parser with fuel (one unit per nesting or
element step; the top level supplies input length + 1, which is always
enough). -/
def parseValue : Nat → List Nat → Option (Json × List Nat)
  | 0, _ => none
  | fuel + 1, input =>
    match skipWs input with
    | [] => none
    | c :: rest =>
      if c = 110 then
        match rest with
        | 117 :: 108 :: 108 :: r => some (.null, r)
        | _ => none
      else if c = 116 then
        match rest with
        | 114 :: 117 :: 101 :: r => some (.bool true, r)
        | _ => none
      else if c = 102 then
        match rest with
        | 97 :: 108 :: 115 :: 101 :: r => some (.bool false, r)
        | _ => none
      else if c = 34 then
        match parseStringRest (rest.length + 1) rest with
        | some (s, r) => some (.str s, r)
        | none => none
      else if c = 91 then
        match skipWs rest with
        | 93 :: r => some (.arr [], r)
        | r2 =>
          match parseElems fuel r2 with
          | some (es, r) => some (.arr es, r)
          | none => none
      else if c = 123 then
        match skipWs rest with
        | 125 :: r => some (.obj [], r)
        | r2 =>
          match parseMembers fuel r2 with
          | some (fs, r) => some (.obj fs, r)
          | none => none
      else if c = 45 ∨ isDigit c then
        match parseNumber (c :: rest) with
        | some (lex, r) => some (.num lex, r)
        | none => none
      else none

/-- Array elements after the opening bracket (nonempty case). -/
def parseElems : Nat → List Nat → Option (List Json × List Nat)
  | 0, _ => none
  | fuel + 1, input =>
    match parseValue fuel input with
    | none => none
    | some (v, r) =>
      match skipWs r with
      | 44 :: r2 =>
        match parseElems fuel r2 with
        | some (vs, r3) => some (v :: vs, r3)
        | none => none
      | 93 :: r2 => some ([v], r2)
      | _ => none

/-- Object members after the opening brace (nonempty case). -/
def parseMembers : Nat → List Nat → Option (List (List Nat × Json) × List Nat)
  | 0, _ => none
  | fuel + 1, input =>
    match skipWs input with
    | [] => none
    | c :: rest =>
      if c = 34 then
        match parseStringRest (rest.length + 1) rest with
        | none => none
        | some (k, r1) =>
          match skipWs r1 with
          | 58 :: r2 =>
            match parseValue fuel r2 with
            | none => none
            | some (v, r3) =>
              match skipWs r3 with
              | 44 :: r4 =>
                match parseMembers fuel r4 with
                | some (fs, r5) => some ((k, v) :: fs, r5)
                | none => none
              | 125 :: r4 => some ([(k, v)], r4)
              | _ => none
          | _ => none
      else none

end

/-- Parse a complete JSON document from bytes, requiring that nothing but
whitespace remains, as serde_json does when deserialising from a slice. -/
def parseJson (b : List Nat) : Option Json :=
  match parseValue (b.length + 1) b with
  | some (v, r) => if skipWs r = [] then some v else none
  | none => none

/-- Lowercase hex digit, as serde_json uses in control-character escapes. -/
def hexDigit (n : Nat) : Nat := if n < 10 then 48 + n else 87 + n

/-- serde_json string escaping: quote and backslash get a backslash escape,
control characters get their short escape or a unicode escape, everything
else passes through. -/
def escapeByte (c : Nat) : List Nat :=
  if c = 34 then [92, 34]
  else if c = 92 then [92, 92]
  else if c < 32 then
    if c = 8 then [92, 98]
    else if c = 9 then [92, 116]
    else if c = 10 then [92, 110]
    else if c = 12 then [92, 102]
    else if c = 13 then [92, 114]
    else [92, 117, 48, 48, hexDigit (c / 16), hexDigit (c % 16)]
  else [c]

/-- Serialised JSON string: quoted, with escaping. -/
def serializeString (s : List Nat) : List Nat :=
  34 :: (s.map escapeByte).flatten ++ [34]

mutual

/-- Compact JSON serialiser, as serde_json::to_vec produces. -/
def serializeJson : Json → List Nat
  | .null => [110, 117, 108, 108]
  | .bool true => [116, 114, 117, 101]
  | .bool false => [102, 97, 108, 115, 101]
  | .num lex => lex
  | .str s => serializeString s
  | .arr es => 91 :: serializeElems es ++ [93]
  | .obj fs => 123 :: serializeFields fs ++ [125]

/-- Comma-separated serialised array elements. -/
def serializeElems : List Json → List Nat
  | [] => []
  | [e] => serializeJson e
  | e :: e2 :: es => serializeJson e ++ 44 :: serializeElems (e2 :: es)

/-- Comma-separated serialised object members. -/
def serializeFields : List (List Nat × Json) → List Nat
  | [] => []
  | [(k, v)] => serializeString k ++ 58 :: serializeJson v
  | (k, v) :: f2 :: fs => serializeString k ++ 58 :: serializeJson v ++ 44 :: serializeFields (f2 :: fs)

end

/-- Modelled from the spec: the base64 alphabet character for a 6-bit
value (the base64 crate's STANDARD engine used by base64_codec in
src/packets.rs). -/
def b64Char (n : Nat) : Nat :=
  if n < 26 then 65 + n
  else if n < 52 then 97 + (n - 26)
  else if n < 62 then 48 + (n - 52)
  else if n = 62 then 43
  else 47

/-- Modelled from the spec: standard base64 encoding with padding, as the
base64 crate's STANDARD engine produces (base64_codec::serialize in
src/packets.rs encodes rxpk data this way). -/
def b64Encode : List Nat → List Nat
  | a :: b :: c :: rest =>
    let w := 65536 * a + 256 * b + c
    b64Char (w / 262144 % 64) :: b64Char (w / 4096 % 64) :: b64Char (w / 64 % 64) ::
      b64Char (w % 64) :: b64Encode rest
  | [a, b] =>
    let w := 1024 * a + 4 * b
    [b64Char (w / 4096 % 64), b64Char (w / 64 % 64), b64Char (w % 64), 61]
  | [a] =>
    let w := 16 * a
    [b64Char (w / 64 % 64), b64Char (w % 64), 61, 61]
  | [] => []

/-- The 6-bit value of a base64 alphabet character. -/
def b64Val (c : Nat) : Option Nat :=
  if 65 ≤ c ∧ c ≤ 90 then some (c - 65)
  else if 97 ≤ c ∧ c ≤ 122 then some (c - 97 + 26)
  else if 48 ≤ c ∧ c ≤ 57 then some (c - 48 + 52)
  else if c = 43 then some 62
  else if c = 47 then some 63
  else none

/-- Modelled from the spec: canonical base64 decoding as the base64
crate's STANDARD engine performs it (base64_codec::deserialize in
src/packets.rs): four-character groups, mandatory canonical padding,
nonzero trailing bits rejected, any other length rejected. -/
def b64Decode : List Nat → Option (List Nat)
  | [] => some []
  | a :: b :: c :: d :: rest =>
    match b64Val a, b64Val b with
    | some x, some y =>
      if c = 61 then
        if d = 61 ∧ rest = [] then
          if y % 16 = 0 then some [4 * x + y / 16] else none
        else none
      else
        match b64Val c with
        | some z =>
          if d = 61 then
            if rest = [] then
              if z % 4 = 0 then some [4 * x + y / 16, y % 16 * 16 + z / 4] else none
            else none
          else
            match b64Val d, b64Decode rest with
            | some w, some tail =>
              some ((4 * x + y / 16) :: (y % 16 * 16 + z / 4) :: (z % 4 * 64 + w) :: tail)
            | _, _ => none
        | none => none
    | _, _ => none
  | _ => none

/-- The bytes of the JSON key rxpk. -/
def rxpkKey : List Nat := [114, 120, 112, 107]

/-- The bytes of the JSON key data. -/
def dataKey : List Nat := [100, 97, 116, 97]

/-- An rxpk element (src/packets.rs, struct RxPk): the decoded data bytes
plus the catch-all map of all other JSON fields, kept as an association
list. -/
structure RxPk where
  data : List Nat
  other : List (List Nat × Json)

/-- The JSON push-data payload (src/packets.rs, struct PushDataPayload):
the rxpk array plus the catch-all map of all other JSON fields. -/
structure PushDataPayload where
  rxpk : List RxPk
  other : List (List Nat × Json)

/-- Insert into the catch-all association list with the last-writer-wins
semantics of a HashMap insert. -/
def insertKV (k : List Nat) (v : Json) : List (List Nat × Json) → List (List Nat × Json)
  | [] => [(k, v)]
  | (k', v') :: rest => if k' = k then (k, v) :: rest else (k', v') :: insertKV k v rest

/-- First binding of a key in an association list. -/
def lookupKV (k : List Nat) : List (List Nat × Json) → Option Json
  | [] => none
  | (k', v) :: rest => if k' = k then some v else lookupKV k rest

/-- Deserialisation of the value of the data field: it must be a JSON
string holding canonical base64 (base64_codec::deserialize in
src/packets.rs). -/
def decodeDataVal : Json → Option (List Nat)
  | .str s => b64Decode s
  | _ => none

/-- Deserialisation of the fields of an RxPk object, as serde derives it
for a struct with a flattened catch-all: the known field data must occur
at most once (a duplicate is an error) and must be a base64 string; every
other field goes into the catch-all map; an absent data field defaults to
the empty byte string. -/
def decodeRxPkFields : List (List Nat × Json) → Option (List Nat) →
    List (List Nat × Json) → Option RxPk
  | [], dat, oth => some ⟨dat.getD [], oth⟩
  | (k, v) :: rest, dat, oth =>
    if k = dataKey then
      match dat with
      | some _ => none
      | none =>
        match decodeDataVal v with
        | some bytes => decodeRxPkFields rest (some bytes) oth
        | none => none
    else decodeRxPkFields rest dat (insertKV k v oth)

/-- Deserialisation of one RxPk from a JSON value: only objects are
accepted. -/
def decodeRxPk : Json → Option RxPk
  | .obj fs => decodeRxPkFields fs none []
  | _ => none

/-- Deserialisation of a list of RxPk elements, in order, failing if any
element fails. -/
def decodeRxPkList0 : List Json → Option (List RxPk)
  | [] => some []
  | j :: rest =>
    match decodeRxPk j, decodeRxPkList0 rest with
    | some r, some rs => some (r :: rs)
    | _, _ => none

/-- Deserialisation of the rxpk array value: only arrays are accepted. -/
def decodeRxPkVec : Json → Option (List RxPk)
  | .arr es => decodeRxPkList0 es
  | _ => none

/-- Deserialisation of the fields of a PushDataPayload object, as serde
derives it: the known field rxpk must occur at most once and deserialise
as an array of RxPk; every other field goes into the catch-all map; an
absent rxpk field defaults to the empty list. -/
def decodePayloadFields : List (List Nat × Json) → Option (List RxPk) →
    List (List Nat × Json) → Option PushDataPayload
  | [], dat, oth => some ⟨dat.getD [], oth⟩
  | (k, v) :: rest, dat, oth =>
    if k = rxpkKey then
      match dat with
      | some _ => none
      | none =>
        match decodeRxPkVec v with
        | some l => decodePayloadFields rest (some l) oth
        | none => none
    else decodePayloadFields rest dat (insertKV k v oth)

/-- Deserialisation of a PushDataPayload from a JSON value: only objects
are accepted. -/
def decodePayload : Json → Option PushDataPayload
  | .obj fs => decodePayloadFields fs none []
  | _ => none

/-- Serialisation of one RxPk back to JSON: the data field first, base64
encoded, then the catch-all fields. -/
def encodeRxPk (r : RxPk) : Json :=
  .obj ((dataKey, .str (b64Encode r.data)) :: r.other)

/-- The serialised fields of a PushDataPayload: the rxpk array first, then
the catch-all fields. -/
def encodePayloadFields (p : PushDataPayload) : List (List Nat × Json) :=
  (rxpkKey, .arr (p.rxpk.map encodeRxPk)) :: p.other

/-- Serialisation of a PushDataPayload back to JSON. -/
def encodePayload (p : PushDataPayload) : Json :=
  .obj (encodePayloadFields p)

/-- Modelled from the spec: a prefix rule (value, bit length) of the
external lrwn_filters crate matches a w-bit quantity x iff the high
bit-length bits of value and of x agree (spec, section 4.2). -/
def pfxMatch (w : Nat) (p : Nat × Nat) (x : Nat) : Bool :=
  x / 2 ^ (w - p.2) = p.1 / 2 ^ (w - p.2)

/-- Modelled from the spec: the filter set of the external lrwn_filters
crate, a DevAddr rule list and a JoinEUI rule list (spec, section 3;
the Rust field names contain a word this development avoids). -/
structure Filters where
  devAddrPfxs : List (Nat × Nat)
  joinEuiPfxs : List (Nat × Nat)

/-- Little-endian byte list to Nat. -/
def leBytes : List Nat → Nat
  | [] => 0
  | b :: rest => b + 256 * leBytes rest

/-- Modelled from the spec: lrwn_filters::matches (spec, section 4.2).
MType is bits 7..5 of byte 0; a join request (000) matches iff the JoinEUI
rule list is empty or some rule matches the little-endian 64-bit JoinEUI
at bytes 1..8; a data MType (010 to 101) matches iff the DevAddr rule list
is empty or some rule matches the little-endian 32-bit DevAddr at bytes
1..4; a payload too short for its MType does not match; any other MType
matches only when both rule lists are empty. -/
def lrwnMatches (phy : List Nat) (f : Filters) : Bool :=
  match phy with
  | [] => false
  | b0 :: rest =>
    let mtype := b0 / 32 % 8
    if mtype = 0 then
      if rest.length < 8 then false
      else f.joinEuiPfxs.isEmpty || f.joinEuiPfxs.any fun p => pfxMatch 64 p (leBytes (rest.take 8))
    else if 2 ≤ mtype ∧ mtype ≤ 5 then
      if rest.length < 4 then false
      else f.devAddrPfxs.isEmpty || f.devAddrPfxs.any fun p => pfxMatch 32 p (leBytes (rest.take 4))
    else f.devAddrPfxs.isEmpty && f.joinEuiPfxs.isEmpty

/-- PushDataPayload::filter_rxpk (src/packets.rs): keep exactly the rxpk
elements whose data matches the filter set. -/
def PushDataPayload.filter_rxpk (f : Filters) (p : PushDataPayload) : PushDataPayload :=
  { p with rxpk := p.rxpk.filter fun v => lrwnMatches v.data f }

/-- PushDataPayload::is_empty (src/packets.rs). -/
def PushDataPayload.is_empty (p : PushDataPayload) : Bool :=
  p.rxpk.isEmpty && p.other.isEmpty

/-- A parsed PUSH_DATA frame (src/packets.rs, struct PushData). -/
structure PushData where
  protocol_version : Nat
  random_token : Nat
  gateway_id : List Nat
  payload : PushDataPayload

/-- PushData::from_slice (src/packets.rs): at least 14 bytes; byte 0 is the
protocol version, bytes 1..2 the big-endian token, bytes 4..11 the gateway
id, bytes 12.. the JSON payload. -/
def PushData.from_slice (b : List Nat) : Option PushData :=
  if b.length < 14 then none
  else
    (parseJson (b.drop 12)).bind fun j =>
      (decodePayload j).map fun p =>
        ⟨b.headD 0, 256 * b.getD 1 0 + b.getD 2 0, (b.drop 4).take 8, p⟩

/-- PushData::to_bytes (src/packets.rs): protocol version, the token's two
big-endian bytes, a literal 0x00 type octet, the gateway id bytes, then the
serialised payload. -/
def PushData.to_bytes (p : PushData) : List Nat :=
  p.protocol_version :: p.random_token % 65536 / 256 :: p.random_token % 256 :: 0 ::
    p.gateway_id ++ serializeJson (encodePayload p.payload)

/-- The 42-byte PUSH_DATA frame of the matching-DevAddr scenario
(tests/test_matching_dev_addr_filter.rs): header 02 01 02 00 01..08 and the
JSON payload containing one rxpk element with data QAQDAgE=. -/
def matchingDevAddrFrame : List Nat :=
  [0x02, 0x01, 0x02, 0x00, 0x01, 0x02, 0x03, 0x04, 0x05, 0x06, 0x07, 0x08, 0x7b, 0x22,
   0x72, 0x78, 0x70, 0x6b, 0x22, 0x3a, 0x5b, 0x7b, 0x22, 0x64, 0x61, 0x74, 0x61, 0x22,
   0x3a, 0x22, 0x51, 0x41, 0x51, 0x44, 0x41, 0x67, 0x45, 0x3d, 0x22, 0x7d, 0x5d, 0x7d]

/-- The filter set of the matching-DevAddr scenario: the single DevAddr
rule 01000000/8 and no JoinEUI rule. -/
def devAddrFilter8 : Filters := ⟨[(0x01000000, 8)], []⟩

/-- The top-level keys of a JSON value: the field names for an object,
nothing for anything else. -/
def keysOf : Json → List (List Nat)
  | .obj fs => fs.map Prod.fst
  | _ => []

/-- Every top-level key of the first JSON value is a top-level key of the
second. -/
def keySubset (j j' : Json) : Prop :=
  ∀ k, k ∈ keysOf j → k ∈ keysOf j'

/-- The elements of the rxpk array of a payload object, as they stood in
the original JSON (first binding of the rxpk key, when it is an array). -/
def origRxpkElems (j : Json) : List Json :=
  match j with
  | .obj fs =>
    match lookupKV rxpkKey fs with
    | some (.arr es) => es
    | _ => []
  | _ => []

/-- C1: filter_rxpk replaces the rxpk list with exactly the subset of the
original rxpk elements whose decoded data matches the filter set, with the
original order preserved (the result is a sublist of the original); no
non-matching element is kept and no matching element is dropped. -/
theorem filter_rxpk_exact_matching_subset (f : Filters) (p : PushDataPayload) :
    (p.filter_rxpk f).rxpk = p.rxpk.filter (fun v => lrwnMatches v.data f) ∧
    (p.filter_rxpk f).rxpk.Sublist p.rxpk ∧
    ∀ v : RxPk, v ∈ (p.filter_rxpk f).rxpk ↔ v ∈ p.rxpk ∧ lrwnMatches v.data f = true := by
  refine ⟨rfl, List.filter_sublist _, fun v => ?_⟩
  simp [PushDataPayload.filter_rxpk, List.mem_filter]

/-- C3: is_empty holds iff the rxpk list is empty and there are no other
payload keys; in particular, after filter_rxpk prunes every element of a
payload that carried only an rxpk key, is_empty holds. -/
theorem is_empty_iff_no_rxpk_and_no_other (f : Filters) (p : PushDataPayload) :
    (p.is_empty = true ↔ p.rxpk = [] ∧ p.other = []) ∧
    (p.other = [] → (∀ r ∈ p.rxpk, lrwnMatches r.data f = false) →
      (p.filter_rxpk f).is_empty = true) := by
  constructor
  · simp [PushDataPayload.is_empty, List.isEmpty_iff]
  · intro hoth hall
    simp only [PushDataPayload.is_empty, PushDataPayload.filter_rxpk, hoth,
      List.isEmpty_nil, Bool.and_true, List.isEmpty_iff, List.filter_eq_nil_iff]
    intro r hr
    simp [hall r hr]

/-- Witness for C3 at a concrete payload with a single non-matching rxpk
element and no other keys. -/
theorem is_empty_iff_no_rxpk_and_no_other_witness :
    (PushDataPayload.filter_rxpk ⟨[(0, 8)], []⟩
      ⟨[⟨[0x40, 0x04, 0x03, 0x02, 0x01], []⟩], []⟩).is_empty = true :=
  (is_empty_iff_no_rxpk_and_no_other ⟨[(0, 8)], []⟩
    ⟨[⟨[0x40, 0x04, 0x03, 0x02, 0x01], []⟩], []⟩).2 rfl (by decide)

/-- C4: packet-type classification fails iff the input is shorter than 4
bytes or the octet at offset 3 is above 0x05; on success the octet selects
the packet type according to the table. -/
theorem packet_type_classification (v : List Nat) :
    (PacketType.try_from v = none ↔ v.length < 4 ∨ 5 < v.getD 3 0) ∧
    (4 ≤ v.length →
      (PacketType.try_from v = some .PushData ↔ v.getD 3 0 = 0x00) ∧
      (PacketType.try_from v = some .PushAck ↔ v.getD 3 0 = 0x01) ∧
      (PacketType.try_from v = some .PullData ↔ v.getD 3 0 = 0x02) ∧
      (PacketType.try_from v = some .PullResp ↔ v.getD 3 0 = 0x03) ∧
      (PacketType.try_from v = some .PullAck ↔ v.getD 3 0 = 0x04) ∧
      (PacketType.try_from v = some .TxAck ↔ v.getD 3 0 = 0x05)) := by
  unfold PacketType.try_from
  generalize v.getD 3 0 = b3
  constructor
  · split_ifs with h1 h2 h3 h4 h5 h6 h7 <;> (simp; omega)
  · intro hlen
    split_ifs with h1 h2 h3 h4 h5 h6 h7 <;> (simp_all; try omega)

/-- Witness for C4 at the PUSH_DATA header 02 01 02 00. -/
theorem packet_type_classification_witness :
    PacketType.try_from [0x02, 0x01, 0x02, 0x00] = some .PushData :=
  ((packet_type_classification [0x02, 0x01, 0x02, 0x00]).2 (by decide)).1.mpr (by decide)

/-- C6: get_random_token fails iff the input has fewer than 3 bytes;
otherwise it returns the big-endian 16-bit value of bytes 1 and 2, which
is below 65536 whenever the input really is a byte string. -/
theorem get_random_token_spec (v : List Nat) :
    (get_random_token v = none ↔ v.length < 3) ∧
    (3 ≤ v.length → get_random_token v = some (256 * v.getD 1 0 + v.getD 2 0)) ∧
    ((∀ x ∈ v, x < 256) → ∀ t, get_random_token v = some t → t < 65536) := by
  refine ⟨?_, ?_, ?_⟩
  · unfold get_random_token
    split_ifs with h <;> simp [h]
  · intro hlen
    unfold get_random_token
    split_ifs with h
    · omega
    · rfl
  · intro hbytes t ht
    match v with
    | [] => simp [get_random_token] at ht
    | [a] => simp [get_random_token] at ht
    | [a, b] => simp [get_random_token] at ht
    | a :: b :: c :: rest =>
      have hb : b < 256 := hbytes b (by simp)
      have hc : c < 256 := hbytes c (by simp)
      have hcond : ¬((a :: b :: c :: rest).length < 3) := by
        simp only [List.length_cons]
        omega
      rw [get_random_token, if_neg hcond] at ht
      have h1 : (a :: b :: c :: rest).getD 1 0 = b := rfl
      have h2 : (a :: b :: c :: rest).getD 2 0 = c := rfl
      rw [h1, h2, Option.some.injEq] at ht
      omega

/-- Witness for C6 at the header 02 01 02 00: the token is 0x0102 = 258. -/
theorem get_random_token_spec_witness :
    get_random_token [0x02, 0x01, 0x02, 0x00] = some 258 ∧ (258 : Nat) < 65536 :=
  ⟨(get_random_token_spec [0x02, 0x01, 0x02, 0x00]).2.1 (by decide),
   (get_random_token_spec [0x02, 0x01, 0x02, 0x00]).2.2 (by decide) 258
     ((get_random_token_spec [0x02, 0x01, 0x02, 0x00]).2.1 (by decide))⟩

/-- C7: GatewayId parsing fails iff the input has fewer than 12 bytes;
otherwise it returns exactly the 8 bytes at offsets 4 through 11, and two
gateway identifiers are equal iff their bytes are equal. -/
theorem gateway_id_try_from_spec (v : List Nat) :
    (GatewayId.try_from v = none ↔ v.length < 12) ∧
    (12 ≤ v.length →
      GatewayId.try_from v = some ⟨(v.drop 4).take 8⟩ ∧ ((v.drop 4).take 8).length = 8) ∧
    (∀ g₁ g₂ : GatewayId, g₁ = g₂ ↔ g₁.bytes = g₂.bytes) := by
  refine ⟨?_, ?_, ?_⟩
  · unfold GatewayId.try_from
    split_ifs with h <;> simp [h]
  · intro hlen
    unfold GatewayId.try_from
    split_ifs with h
    · omega
    · refine ⟨rfl, ?_⟩
      simp only [List.length_take, List.length_drop]
      omega
  · intro g₁ g₂
    cases g₁
    cases g₂
    simp

/-- Witness for C7 at a 12-byte PULL_DATA-shaped frame. -/
theorem gateway_id_try_from_spec_witness :
    GatewayId.try_from [0x02, 0xAA, 0xBB, 0x02, 1, 2, 3, 4, 5, 6, 7, 8] =
      some ⟨[1, 2, 3, 4, 5, 6, 7, 8]⟩ :=
  ((gateway_id_try_from_spec [0x02, 0xAA, 0xBB, 0x02, 1, 2, 3, 4, 5, 6, 7, 8]).2.1
    (by decide)).1

/-- C8: filter_rxpk mutates only the rxpk field; the catch-all map of all
non-rxpk JSON keys is unchanged by filtering, whatever the filter set and
payload, including when every rxpk element is pruned. -/
theorem filter_rxpk_preserves_other (f : Filters) (p : PushDataPayload) :
    (p.filter_rxpk f).other = p.other := rfl

/-- C5: parsing the matching-DevAddr scenario frame, filtering with the
single DevAddr rule 01000000/8 (which the contained uplink with DevAddr
01020304 matches, so nothing is pruned), and re-encoding yields exactly
the original 42 bytes. -/
theorem matching_devaddr_frame_roundtrip :
    ∃ pd : PushData,
      PushData.from_slice matchingDevAddrFrame = some pd ∧
      pd.payload.rxpk.map RxPk.data = [[0x40, 0x04, 0x03, 0x02, 0x01]] ∧
      lrwnMatches [0x40, 0x04, 0x03, 0x02, 0x01] devAddrFilter8 = true ∧
      pd.payload.filter_rxpk devAddrFilter8 = pd.payload ∧
      PushData.to_bytes
        ⟨pd.protocol_version, pd.random_token, pd.gateway_id,
          pd.payload.filter_rxpk devAddrFilter8⟩ = matchingDevAddrFrame := by
  refine ⟨⟨2, 258, [1, 2, 3, 4, 5, 6, 7, 8], ⟨[⟨[0x40, 0x04, 0x03, 0x02, 0x01], []⟩], []⟩⟩,
    ?_, rfl, rfl, rfl, rfl⟩
  rfl

/-- Inserting a key makes it present in the catch-all map. -/
theorem insertKV_key_mem (k : List Nat) (v : Json) (m : List (List Nat × Json)) :
    k ∈ (insertKV k v m).map Prod.fst := by
  induction m with
  | nil => simp [insertKV]
  | cons kv rest ih =>
    obtain ⟨k', v'⟩ := kv
    simp only [insertKV]
    split_ifs with h
    · simp
    · simp only [List.map_cons, List.mem_cons]
      exact Or.inr ih

/-- Inserting a key keeps every key already present in the catch-all map. -/
theorem insertKV_mem_mono (k k' : List Nat) (v : Json) (m : List (List Nat × Json))
    (h : k' ∈ m.map Prod.fst) : k' ∈ (insertKV k v m).map Prod.fst := by
  induction m with
  | nil => simp at h
  | cons kv rest ih =>
    obtain ⟨k0, v0⟩ := kv
    simp only [List.map_cons, List.mem_cons] at h
    simp only [insertKV]
    split_ifs with heq
    · simp only [List.map_cons, List.mem_cons]
      rcases h with h | h
      · exact Or.inl (h.trans heq)
      · exact Or.inr h
    · simp only [List.map_cons, List.mem_cons]
      rcases h with h | h
      · exact Or.inl h
      · exact Or.inr (ih h)

/-- Keys seen while deserialising an RxPk object end up either as the data
field or in the catch-all map, and already-accumulated keys persist. -/
theorem decodeRxPkFields_keys (gs : List (List Nat × Json)) :
    ∀ (dat : Option (List Nat)) (oth : List (List Nat × Json)) (r : RxPk),
    decodeRxPkFields gs dat oth = some r →
      (∀ k ∈ gs.map Prod.fst, k = dataKey ∨ k ∈ r.other.map Prod.fst) ∧
      (∀ k ∈ oth.map Prod.fst, k ∈ r.other.map Prod.fst) := by
  induction gs with
  | nil =>
    intro dat oth r h
    simp only [decodeRxPkFields, Option.some.injEq] at h
    subst h
    exact ⟨by simp, fun k hk => hk⟩
  | cons kv rest ih =>
    intro dat oth r h
    obtain ⟨k0, v0⟩ := kv
    by_cases hk0 : k0 = dataKey
    · simp only [decodeRxPkFields] at h
      rw [if_pos hk0] at h
      cases dat with
      | some x => exact absurd h (by simp)
      | none =>
        cases hb : decodeDataVal v0 with
        | none => rw [hb] at h; exact absurd h (by simp)
        | some bytes =>
          rw [hb] at h
          obtain ⟨h1, h2⟩ := ih (some bytes) oth r h
          refine ⟨fun k hk => ?_, h2⟩
          simp only [List.map_cons, List.mem_cons] at hk
          rcases hk with hk | hk
          · exact Or.inl (hk.trans hk0)
          · exact h1 k hk
    · simp only [decodeRxPkFields] at h
      rw [if_neg hk0] at h
      obtain ⟨h1, h2⟩ := ih dat (insertKV k0 v0 oth) r h
      refine ⟨fun k hk => ?_, fun k hk => h2 k (insertKV_mem_mono k0 k v0 oth hk)⟩
      simp only [List.map_cons, List.mem_cons] at hk
      rcases hk with hk | hk
      · exact Or.inr (h2 k (by rw [hk]; exact insertKV_key_mem k0 v0 oth))
      · exact h1 k hk

/-- Keys seen while deserialising a PushDataPayload object end up either as
the rxpk field or in the catch-all map, accumulated keys persist, and the
resulting rxpk list is exactly the deserialisation of the first binding of
the rxpk key (or the accumulator default when the key is absent). -/
theorem decodePayloadFields_spec (fs : List (List Nat × Json)) :
    ∀ (dat : Option (List RxPk)) (oth : List (List Nat × Json)) (p : PushDataPayload),
    decodePayloadFields fs dat oth = some p →
      (∀ k ∈ fs.map Prod.fst, k = rxpkKey ∨ k ∈ p.other.map Prod.fst) ∧
      (∀ k ∈ oth.map Prod.fst, k ∈ p.other.map Prod.fst) ∧
      (match lookupKV rxpkKey fs with
       | some v => dat = none ∧ ∃ es, v = Json.arr es ∧ decodeRxPkList0 es = some p.rxpk
       | none => p.rxpk = dat.getD []) := by
  induction fs with
  | nil =>
    intro dat oth p h
    simp only [decodePayloadFields, Option.some.injEq] at h
    subst h
    exact ⟨by simp, fun k hk => hk, by simp [lookupKV]⟩
  | cons kv rest ih =>
    intro dat oth p h
    obtain ⟨k0, v0⟩ := kv
    by_cases hk0 : k0 = rxpkKey
    · simp only [decodePayloadFields] at h
      rw [if_pos hk0] at h
      cases dat with
      | some x => exact absurd h (by simp)
      | none =>
        cases hv : decodeRxPkVec v0 with
        | none => rw [hv] at h; exact absurd h (by simp)
        | some l =>
          rw [hv] at h
          obtain ⟨h1, h2, h3⟩ := ih (some l) oth p h
          have hlook : lookupKV rxpkKey ((k0, v0) :: rest) = some v0 := by
            simp [lookupKV, hk0]
          refine ⟨fun k hk => ?_, h2, ?_⟩
          · simp only [List.map_cons, List.mem_cons] at hk
            rcases hk with hk | hk
            · exact Or.inl (hk.trans hk0)
            · exact h1 k hk
          · rw [hlook]
            cases hlr : lookupKV rxpkKey rest with
            | some v' =>
              rw [hlr] at h3
              exact absurd h3.1 (by simp)
            | none =>
              rw [hlr] at h3
              simp only [Option.getD_some] at h3
              cases v0 with
              | arr es =>
                simp only [decodeRxPkVec] at hv
                exact ⟨rfl, es, rfl, by rw [hv, h3]⟩
              | null => simp [decodeRxPkVec] at hv
              | bool b => simp [decodeRxPkVec] at hv
              | num lx => simp [decodeRxPkVec] at hv
              | str s => simp [decodeRxPkVec] at hv
              | obj gs => simp [decodeRxPkVec] at hv
    · simp only [decodePayloadFields] at h
      rw [if_neg hk0] at h
      obtain ⟨h1, h2, h3⟩ := ih dat (insertKV k0 v0 oth) p h
      have hlook : lookupKV rxpkKey ((k0, v0) :: rest) = lookupKV rxpkKey rest := by
        simp [lookupKV, hk0]
      refine ⟨fun k hk => ?_, fun k hk => h2 k (insertKV_mem_mono k0 k v0 oth hk), ?_⟩
      · simp only [List.map_cons, List.mem_cons] at hk
        rcases hk with hk | hk
        · exact Or.inr (h2 k (by rw [hk]; exact insertKV_key_mem k0 v0 oth))
        · exact h1 k hk
      · rw [hlook]
        exact h3

/-- Elementwise successful deserialisation of an rxpk array. -/
theorem decodeRxPkList0_forall2 (es : List Json) :
    ∀ rs : List RxPk, decodeRxPkList0 es = some rs →
      List.Forall₂ (fun e r => decodeRxPk e = some r) es rs := by
  induction es with
  | nil =>
    intro rs h
    simp only [decodeRxPkList0, Option.some.injEq] at h
    subst h
    exact .nil
  | cons j rest ih =>
    intro rs h
    simp only [decodeRxPkList0] at h
    cases hj : decodeRxPk j with
    | none => rw [hj] at h; exact absurd h (by simp)
    | some r =>
      rw [hj] at h
      cases hr : decodeRxPkList0 rest with
      | none => rw [hr] at h; exact absurd h (by simp)
      | some rs' =>
        rw [hr] at h
        simp only [Option.some.injEq] at h
        subst h
        exact .cons hj (ih rs' hr)

/-- Every key of a successfully deserialised rxpk object is a key of its
re-serialisation. -/
theorem decodeRxPk_keySubset (e : Json) (r : RxPk) (h : decodeRxPk e = some r) :
    keySubset e (encodeRxPk r) := by
  cases e with
  | obj gs =>
    intro k hk
    have hs := decodeRxPkFields_keys gs none [] r h
    simp only [keysOf] at hk
    rcases hs.1 k hk with hd | ho
    · simp [encodeRxPk, keysOf, hd]
    · simp [encodeRxPk, keysOf, ho]
  | null => simp [decodeRxPk] at h
  | bool b => simp [decodeRxPk] at h
  | num l => simp [decodeRxPk] at h
  | str s => simp [decodeRxPk] at h
  | arr es => simp [decodeRxPk] at h

/-- Every key of a successfully deserialised payload object is a key of
its re-serialisation, and the original rxpk elements deserialise
elementwise, in order, into the payload's rxpk list. -/
theorem decodePayload_spec (j : Json) (p : PushDataPayload) (h : decodePayload j = some p) :
    keySubset j (encodePayload p) ∧
    List.Forall₂ (fun e r => decodeRxPk e = some r) (origRxpkElems j) p.rxpk := by
  cases j with
  | obj fs =>
    have hs := decodePayloadFields_spec fs none [] p h
    constructor
    · intro k hk
      simp only [keysOf] at hk
      rcases hs.1 k hk with hd | ho
      · simp [encodePayload, encodePayloadFields, keysOf, hd]
      · simp [encodePayload, encodePayloadFields, keysOf, ho]
    · have h3 := hs.2.2
      cases hl : lookupKV rxpkKey fs with
      | some v =>
        rw [hl] at h3
        obtain ⟨-, es, rfl, hdec⟩ := h3
        simp only [origRxpkElems, hl]
        exact decodeRxPkList0_forall2 es p.rxpk hdec
      | none =>
        rw [hl] at h3
        simp only [Option.getD_none] at h3
        simp only [origRxpkElems, hl]
        rw [h3]
        exact .nil
  | null => simp [decodePayload] at h
  | bool b => simp [decodePayload] at h
  | num l => simp [decodePayload] at h
  | str s => simp [decodePayload] at h
  | arr es => simp [decodePayload] at h

/-- C2: for every byte string accepted by PushData::from_slice, the
re-encoded payload contains every top-level key of the original JSON
payload, and each retained rxpk element contains every key of the
corresponding original rxpk element. -/
theorem push_data_roundtrip_preserves_keys (b : List Nat) (pd : PushData)
    (h : PushData.from_slice b = some pd) :
    ∃ j, parseJson (b.drop 12) = some j ∧
      keySubset j (encodePayload pd.payload) ∧
      List.Forall₂ (fun e r => keySubset e (encodeRxPk r)) (origRxpkElems j)
        pd.payload.rxpk := by
  rw [PushData.from_slice] at h
  split_ifs at h with hlen
  rw [Option.bind_eq_some] at h
  obtain ⟨j, hj, hp⟩ := h
  rw [Option.map_eq_some'] at hp
  obtain ⟨p, hp, rfl⟩ := hp
  obtain ⟨h1, h2⟩ := decodePayload_spec j p hp
  exact ⟨j, hj, h1, h2.imp fun a b hab => decodeRxPk_keySubset a b hab⟩

/-- Witness for C2 at a concrete frame whose payload carries an unknown
top-level key y and an rxpk element with an unknown key x. -/
theorem push_data_roundtrip_preserves_keys_witness :
    ∃ j, parseJson (([2, 1, 2, 0, 1, 2, 3, 4, 5, 6, 7, 8, 123, 34, 114, 120, 112, 107, 34, 58,
        91, 123, 34, 100, 97, 116, 97, 34, 58, 34, 34, 44, 34, 120, 34, 58, 50, 125, 93, 44,
        34, 121, 34, 58, 51, 125] : List Nat).drop 12) = some j ∧
      keySubset j (encodePayload (⟨2, 258, [1, 2, 3, 4, 5, 6, 7, 8],
        ⟨[⟨[], [([120], Json.num [50])]⟩], [([121], Json.num [51])]⟩⟩ : PushData).payload) ∧
      List.Forall₂ (fun e r => keySubset e (encodeRxPk r)) (origRxpkElems j)
        (⟨2, 258, [1, 2, 3, 4, 5, 6, 7, 8],
          ⟨[⟨[], [([120], Json.num [50])]⟩], [([121], Json.num [51])]⟩⟩ : PushData).payload.rxpk :=
  push_data_roundtrip_preserves_keys
    [2, 1, 2, 0, 1, 2, 3, 4, 5, 6, 7, 8, 123, 34, 114, 120, 112, 107, 34, 58,
     91, 123, 34, 100, 97, 116, 97, 34, 58, 34, 34, 44, 34, 120, 34, 58, 50, 125, 93, 44,
     34, 121, 34, 58, 51, 125] _ rfl

/-- C9: the re-encoded payload always carries an rxpk key and every
re-encoded rxpk element always carries a data key; when the parsed payload
had no rxpk key the re-encoded one serialises it as an empty array; hence
encode after parse is not the identity on payload bytes lacking these
keys, witnessed by the 14-byte frame whose payload is the empty object. -/
theorem encode_always_emits_rxpk_and_data :
    (∀ p : PushDataPayload, rxpkKey ∈ keysOf (encodePayload p)) ∧
    (∀ r : RxPk, dataKey ∈ keysOf (encodeRxPk r)) ∧
    (∀ fs p, decodePayload (Json.obj fs) = some p → lookupKV rxpkKey fs = none →
      encodePayload p = Json.obj ((rxpkKey, Json.arr []) :: p.other)) ∧
    (PushData.from_slice [2, 0, 0, 0, 1, 2, 3, 4, 5, 6, 7, 8, 123, 125]).isSome = true ∧
    (PushData.from_slice [2, 0, 0, 0, 1, 2, 3, 4, 5, 6, 7, 8, 123, 125]).map PushData.to_bytes ≠
      some [2, 0, 0, 0, 1, 2, 3, 4, 5, 6, 7, 8, 123, 125] := by
  refine ⟨fun p => by simp [encodePayload, encodePayloadFields, keysOf],
    fun r => by simp [encodeRxPk, keysOf], ?_, rfl, by decide⟩
  intro fs p h hnone
  have hs := decodePayloadFields_spec fs none [] p h
  have h3 := hs.2.2
  rw [hnone] at h3
  simp only [Option.getD_none] at h3
  simp [encodePayload, encodePayloadFields, h3]

/-- Witness for C9: the empty payload re-encodes with an explicit empty
rxpk array. -/
theorem encode_always_emits_rxpk_and_data_witness :
    encodePayload ⟨[], []⟩ = Json.obj [(rxpkKey, Json.arr [])] :=
  encode_always_emits_rxpk_and_data.2.2.1 [] ⟨[], []⟩ rfl rfl

/-- C10: from_slice never reads the packet-type octet, so its result is
unchanged by any rewrite of byte 3; to_bytes always writes 0x00 at offset
3; and any buffer of length at least 14 whose bytes from offset 12 onward
are valid payload JSON parses successfully. -/
theorem from_slice_ignores_type_octet (b : List Nat) (c : Nat) :
    PushData.from_slice (b.set 3 c) = PushData.from_slice b ∧
    (∀ p : PushData, p.to_bytes.getD 3 9 = 0) ∧
    (14 ≤ b.length → ∀ j q, parseJson (b.drop 12) = some j → decodePayload j = some q →
      (PushData.from_slice b).isSome = true) := by
  refine ⟨?_, fun p => rfl, ?_⟩
  · match b with
    | [] => rfl
    | [b0] => rfl
    | [b0, b1] => rfl
    | [b0, b1, b2] => rfl
    | b0 :: b1 :: b2 :: b3 :: rest => rfl
  · intro hlen j q hj hq
    have hn : ¬b.length < 14 := by omega
    simp [PushData.from_slice, hn, hj, hq]

/-- Witness for C10: rewriting the type octet of the empty-payload frame
to an invalid value changes nothing, and the frame parses. -/
theorem from_slice_ignores_type_octet_witness :
    PushData.from_slice (([2, 0, 0, 0, 1, 2, 3, 4, 5, 6, 7, 8, 123, 125] : List Nat).set 3 77) =
      PushData.from_slice [2, 0, 0, 0, 1, 2, 3, 4, 5, 6, 7, 8, 123, 125] ∧
    (PushData.from_slice [2, 0, 0, 0, 1, 2, 3, 4, 5, 6, 7, 8, 123, 125]).isSome = true :=
  ⟨(from_slice_ignores_type_octet [2, 0, 0, 0, 1, 2, 3, 4, 5, 6, 7, 8, 123, 125] 77).1,
   (from_slice_ignores_type_octet [2, 0, 0, 0, 1, 2, 3, 4, 5, 6, 7, 8, 123, 125] 77).2.2
     (by decide) (Json.obj []) ⟨[], []⟩ rfl rfl⟩
